import Mathlib

/-!
Verification development for the zha_custom repository.

The file embeds the two source modules, scan_device.py and zdo.py, as pure
Lean functions. External collaborators (the zigpy cluster transport, the
static zcl schema tables, the application controller) are modelled as
records of lookup functions and scripted response lists; Python dicts are
association lists in insertion order; the report artifact is a JSON-like
inductive value. Line numbers in doc comments refer to the source files.
-/

namespace Zha

/-- JSON-like values: the shape of the report artifacts built by
scan_device.py. Python dicts are modelled as association lists kept in
insertion order. -/
inductive JVal where
  | null : JVal
  | str : String → JVal
  | num : Nat → JVal
  | arr : List JVal → JVal
  | obj : List (String × JVal) → JVal

/-- Python dict with keys of type K and JVal values, in insertion order. -/
abbrev Dict (K : Type) : Type := List (K × JVal)

/-- Python dict assignment d[k] = v: replace the value in place when the key
is already present, otherwise append the new binding at the end. -/
def dinsert {K : Type} [BEq K] : Dict K → K → JVal → Dict K
  | [], k, v => [(k, v)]
  | p :: rest, k, v => if p.1 == k then (k, v) :: rest else p :: dinsert rest k v

/-- Python dict read d.get(k): first binding with the key, if any. -/
def dlookup {K : Type} [BEq K] : Dict K → K → Option JVal
  | [], _ => none
  | p :: rest, k => if p.1 == k then some p.2 else dlookup rest k

/-- In-place update of the value stored under an existing key; a dict without
the key is returned unchanged (the Python code would raise KeyError there,
but the transport only ever reports ids that were requested). -/
def dmodify {K : Type} [BEq K] : Dict K → K → (JVal → JVal) → Dict K
  | [], _, _ => []
  | p :: rest, k, f => if p.1 == k then (p.1, f p.2) :: rest else p :: dmodify rest k f

/-- Key list of a dict, in insertion order, as produced by list(d.keys()). -/
def dkeys {K : Type} (d : Dict K) : List K := d.map (fun p => p.1)

/-- Lowercase hexadecimal digit character, as produced by the Python format
specifier x. -/
def hexDigitChar (d : Nat) : Char :=
  if d < 10 then Char.ofNat (48 + d) else Char.ofNat (87 + d)

/-- Big-endian base-16 expansion of n, exactly w digit characters wide. -/
def hexCharsAux : Nat → Nat → List Char
  | 0, _ => []
  | w + 1, n => hexDigitChar (n / 16 ^ w) :: hexCharsAux w (n % 16 ^ w)

/-- Digit counting loop for hexWidth; the first argument is fuel, always
called with at least the value itself, so the base case is never the one
that decides the answer. -/
def hexWidthAux : Nat → Nat → Nat
  | 0, _ => 1
  | fuel + 1, n => if n < 16 then 1 else hexWidthAux fuel (n / 16) + 1

/-- Number of hex digits Python prints for n when no padding is requested. -/
def hexWidth (n : Nat) : Nat := hexWidthAux n n

/-- Digit characters of n zero-padded to at least w digits, matching the
Python format specifier 0Nx. -/
def hexPad (w n : Nat) : List Char := hexCharsAux (max w (hexWidth n)) n

/-- Python format 0x followed by a zero-padded hex field of width w. -/
def hexKey (w n : Nat) : String := String.mk ('0' :: 'x' :: hexPad w n)

/-- Python format 0x followed by 04x applied to n. -/
def hex4 (n : Nat) : String := hexKey 4 n

/-- Python format 0x followed by 02x applied to n. -/
def hex2 (n : Nat) : String := hexKey 2 n

/-- UTF-8 continuation byte test. -/
def isCont (b : Nat) : Bool := 128 ≤ b && b < 192

/-- Admissible second byte of a three-byte UTF-8 sequence led by b: the E0
and ED leads restrict it to exclude overlong forms and surrogates. -/
def utf8Cont2Ok (b c1 : Nat) : Bool :=
  if b = 224 then 160 ≤ c1 && c1 < 192
  else if b = 237 then 128 ≤ c1 && c1 < 160
  else isCont c1

/-- Admissible second byte of a four-byte UTF-8 sequence led by b: the F0 and
F4 leads restrict it to exclude overlong forms and points above 0x10FFFF. -/
def utf8Cont3Ok (b c1 : Nat) : Bool :=
  if b = 240 then 144 ≤ c1 && c1 < 192
  else if b = 244 then 128 ≤ c1 && c1 < 144
  else isCont c1

/-- Strict UTF-8 decoding of a byte list, as performed by the Python bytes
decode method with its default arguments: overlong encodings, surrogates and
code points above 0x10FFFF are rejected. -/
def utf8Decode : List Nat → Option (List Char)
  | [] => some []
  | b :: rest =>
    if b < 128 then
      match utf8Decode rest with
      | some cs => some (Char.ofNat b :: cs)
      | none => none
    else if b < 194 then none
    else if b ≤ 223 then
      match rest with
      | c1 :: r1 =>
        if isCont c1 then
          match utf8Decode r1 with
          | some cs => some (Char.ofNat ((b - 192) * 64 + (c1 - 128)) :: cs)
          | none => none
        else none
      | [] => none
    else if b ≤ 239 then
      match rest with
      | c1 :: c2 :: r2 =>
        if utf8Cont2Ok b c1 && isCont c2 then
          match utf8Decode r2 with
          | some cs =>
            some (Char.ofNat ((b - 224) * 4096 + (c1 - 128) * 64 + (c2 - 128)) :: cs)
          | none => none
        else none
      | _ => none
    else if b ≤ 244 then
      match rest with
      | c1 :: c2 :: c3 :: r3 =>
        if utf8Cont3Ok b c1 && isCont c2 && isCont c3 then
          match utf8Decode r3 with
          | some cs =>
            some (Char.ofNat ((b - 240) * 262144 + (c1 - 128) * 4096 +
              (c2 - 128) * 64 + (c3 - 128)) :: cs)
          | none => none
        else none
      | _ => none
    else none

/-- Code points the Python str.isspace predicate accepts, which is the set
str.strip removes. -/
def pyIsSpace (c : Char) : Bool :=
  let n := c.toNat
  (9 ≤ n && n ≤ 13) || (28 ≤ n && n ≤ 32) || n == 133 || n == 160 || n == 5760 ||
    (8192 ≤ n && n ≤ 8202) || n == 8232 || n == 8233 || n == 8239 || n == 8287 ||
    n == 12288

/-- Python str.strip with no arguments: drop leading and trailing whitespace. -/
def pyStrip (s : List Char) : List Char :=
  ((s.dropWhile pyIsSpace).reverse.dropWhile pyIsSpace).reverse

/-- Python bytes.hex: two lowercase hex digits per byte, concatenated. -/
def bytesHex (bs : List Nat) : List Char :=
  bs.foldr (fun b acc => hexDigitChar (b / 16) :: hexDigitChar (b % 16) :: acc) []

/-- Value of one hexadecimal digit character, accepting both cases. -/
def hexDigitVal (c : Char) : Option Nat :=
  if 48 ≤ c.toNat && c.toNat ≤ 57 then some (c.toNat - 48)
  else if 97 ≤ c.toNat && c.toNat ≤ 102 then some (c.toNat - 87)
  else if 65 ≤ c.toNat && c.toNat ≤ 70 then some (c.toNat - 55)
  else none

/-- Python bytes.fromhex on a separator-free string: parse pairs of digits. -/
def hexDecode : List Char → Option (List Nat)
  | [] => some []
  | c1 :: c2 :: rest =>
    match hexDigitVal c1, hexDigitVal c2, hexDecode rest with
    | some h, some l, some bs => some ((h * 16 + l) :: bs)
    | _, _, _ => none
  | [_] => none

/-- Wire record of one attribute inside a discover_attributes_extended
response page: fields attrid, datatype and acl. -/
structure AttrRec where
  attrid : Nat
  datatype : Nat
  acl : Nat

/-- Attribute value returned by read_attributes: either a Python bytes object
or any other value, which scan_device.py stores unchanged. -/
inductive PyVal where
  | bytes : List Nat → PyVal
  | other : JVal → PyVal

/-- One transport response to a paginated discovery request. fail is a
DeliveryError that escaped the retry wrapper after its 5 attempts; status is
a bare foundation.Status instead of a record page; page carries the
completion flag and the record list. -/
inductive PageResp (α : Type) where
  | fail : PageResp α
  | status : PageResp α
  | page : Bool → List α → PageResp α

/-- One transport response to a read_attr batch call. fail is a DeliveryError
that escaped the retry wrapper; ok carries the success map as id-value pairs.
The failed map of the Python return value is only logged, so it is dropped. -/
inductive ReadResp where
  | fail : ReadResp
  | ok : List (Nat × PyVal) → ReadResp

/-- External zigpy cluster collaborator: its id, its schema tables (only the
components scan_device.py reads), and the scripted transport responses its
discovery and read endpoints will produce, in request order. -/
structure Cluster where
  cluster_id : Nat
  ep_attribute : String
  attributes : Nat → Option String
  server_commands : Nat → Option (String × (String ⊕ List String))
  client_commands : Nat → Option (String × (String ⊕ List String))
  attrPages : List (PageResp AttrRec)
  readResps : List ReadResp
  recvPages : List (PageResp Nat)
  genPages : List (PageResp Nat)

/-- External zigpy.zcl.foundation collaborator: the two type names stored for
a DATA_TYPES entry, and the AttributeAccessControl enumeration, where none
models the ValueError raised for an unknown numeric value. -/
structure Foundation where
  data_types : Nat → Option (String × String)
  access_control : Nat → Option String

/-- Core pagination loop shared by discover_attributes_extended,
discover_commands_received and discover_commands_generated (scan_device.py
lines 98-141, 176-209 and 221-254): each iteration issues one retry-wrapped
request at the current cursor and consumes the next scripted response. A
DeliveryError or a bare status response breaks out of the loop; otherwise the
page records are folded into the accumulated dict by step and the loop ends
once the completion flag is true. Returns the start ids of the issued
requests and the accumulated dict. -/
def paginate {α K : Type} [BEq K] (step : Nat × Dict K → α → Nat × Dict K) :
    List (PageResp α) → Nat → Dict K → List Nat × Dict K
  | [], _, res => ([], res)
  | PageResp.fail :: _, cur, res => ([cur], res)
  | PageResp.status :: _, cur, res => ([cur], res)
  | PageResp.page done recs :: rest, cur, res =>
    let s := recs.foldl step (cur, res)
    if done then ([cur], s.2)
    else
      let p := paginate step rest s.1 s.2
      (cur :: p.1, p.2)

/-- Record built for one discovered attribute (scan_device.py lines 120-139):
the name falls back to the stringified id, the type pair falls back to the
hex-formatted type code, the access name falls back to undefined. -/
def attrEntry (F : Foundation) (cl : Cluster) (r : AttrRec) : JVal :=
  let attr_name : String :=
    match cl.attributes r.attrid with
    | some n => n
    | none => toString r.attrid
  let value_type : JVal :=
    match F.data_types r.datatype with
    | some t => JVal.arr [JVal.str t.1, JVal.str t.2]
    | none => JVal.str (hex2 r.datatype)
  let access : String :=
    match F.access_control r.acl with
    | some n => n
    | none => "undefined"
  JVal.obj [("attribute_id", JVal.str (hex4 r.attrid)),
    ("attribute_name", JVal.str attr_name),
    ("value_type", value_type),
    ("access", JVal.str access)]

/-- Loop body for one attribute record (scan_device.py lines 119-140): the
record is stored under its own id and the cursor becomes that id plus one. -/
def attrStep (F : Foundation) (cl : Cluster) (s : Nat × Dict Nat) (r : AttrRec) :
    Nat × Dict Nat :=
  (r.attrid + 1, dinsert s.2 r.attrid (attrEntry F cl r))

/-- Pagination phase of discover_attributes_extended (scan_device.py lines
94-141). -/
def discoverAttrsPager (F : Foundation) (cl : Cluster) : List Nat × Dict Nat :=
  paginate (attrStep F cl) cl.attrPages 0 []

/-- Decoding applied to one read value (scan_device.py lines 151-155): a bytes
value is cut at the first null byte and the prefix decoded as UTF-8 with
surrounding whitespace stripped; if decoding fails the whole original value
is replaced by its hex string. Any other value is stored unchanged. -/
def processReadValue : PyVal → JVal
  | PyVal.bytes bs =>
    match utf8Decode (bs.takeWhile (fun b => b != 0)) with
    | some cs => JVal.str (String.mk (pyStrip cs))
    | none => JVal.str (String.mk (bytesHex bs))
  | PyVal.other j => j

/-- Merge the success map of one batch into the accumulated records
(scan_device.py lines 150-156): each reported value is decoded and stored
under the attribute_value key of the record with that id. -/
def applySuccess : Dict Nat → List (Nat × PyVal) → Dict Nat
  | d, [] => d
  | d, p :: rest =>
    applySuccess
      (dmodify d p.1 (fun e =>
        match e with
        | JVal.obj fs => JVal.obj (dinsert fs "attribute_value" (processReadValue p.2))
        | other => other))
      rest

/-- Effect of one read_attr batch response on the accumulated records: a
DeliveryError leaves them unchanged (the chunk is skipped), a success map is
merged in. -/
def readStep (resp : ReadResp) (d : Dict Nat) : Dict Nat :=
  match resp with
  | ReadResp.fail => d
  | ReadResp.ok succ => applySuccess d succ

/-- Value Reader loop (scan_device.py lines 143-160): take successive chunks
of at most 4 ids, issue one retry-wrapped read_attr call per chunk (consuming
the next scripted response; a missing script entry counts as a
DeliveryError), merge the successful values, and on DeliveryError skip the
chunk and continue. Returns the argument of every issued batch call together
with the updated records. -/
def readPhase : List Nat → List ReadResp → Dict Nat → List (List Nat) × Dict Nat
  | [], _, d => ([], d)
  | [a], resps, d => ([[a]], readStep (resps.headD ReadResp.fail) d)
  | [a, b], resps, d => ([[a, b]], readStep (resps.headD ReadResp.fail) d)
  | [a, b, c], resps, d => ([[a, b, c]], readStep (resps.headD ReadResp.fail) d)
  | a :: b :: c :: e :: rest, resps, d =>
    let p := readPhase rest resps.tail (readStep (resps.headD ReadResp.fail) d)
    ([a, b, c, e] :: p.1, p.2)

/-- Chunking performed by the Value Reader: successive slices of 4 ids. -/
def chunks4 : List Nat → List (List Nat)
  | [] => []
  | [a] => [[a]]
  | [a, b] => [[a, b]]
  | [a, b, c] => [[a, b, c]]
  | a :: b :: c :: e :: rest => [a, b, c, e] :: chunks4 rest

/-- scan_device.py lines 90-164: paginated attribute discovery, then the read
phase over the discovered ids in insertion order, then serialization with the
numeric keys sorted ascending and formatted with hex4. -/
def discover_attributes_extended (F : Foundation) (cl : Cluster) : JVal :=
  let d := (discoverAttrsPager F cl).2
  let d2 := (readPhase (dkeys d) cl.readResps d).2
  JVal.obj ((List.insertionSort (fun a b => a ≤ b) (dkeys d2)).map
    (fun a => (hex4 a, (dlookup d2 a).getD (JVal.obj []))))

/-- Arguments of the batch read calls issued by the Value Reader inside
discover_attributes_extended. -/
def attrReadCalls (F : Foundation) (cl : Cluster) : List (List Nat) :=
  (readPhase (dkeys (discoverAttrsPager F cl).2) cl.readResps
    (discoverAttrsPager F cl).2).1

/-- Lexicographic code-point comparison of character lists: the Python string
less-than operator. -/
def strLt : List Char → List Char → Bool
  | [], [] => false
  | [], _ :: _ => true
  | _ :: _, [] => false
  | a :: as, b :: bs => if a < b then true else if b < a then false else strLt as bs

/-- Comparison by the string key, the ordering Python sorted uses on dict
items under a key function returning the pair first component. -/
def keyLE (p q : String × JVal) : Prop := strLt q.1.data p.1.data = false

instance : DecidableRel keyLE := fun p q =>
  inferInstanceAs (Decidable (strLt q.1.data p.1.data = false))

/-- Record built for one discovered received command (scan_device.py lines
196-207): a schema miss falls back to the stringified id with the
not_in_zcl marker; a non-string argument descriptor is mapped to the list of
argument type names. -/
def cmdEntryReceived (cl : Cluster) (c : Nat) : JVal :=
  let data := (cl.server_commands c).getD (toString c, Sum.inl "not_in_zcl")
  let args : JVal :=
    match data.2 with
    | Sum.inl s => JVal.str s
    | Sum.inr l => JVal.arr (l.map JVal.str)
  JVal.obj [("command_id", JVal.str (hex2 c)),
    ("command_name", JVal.str data.1),
    ("command_arguments", args)]

/-- Loop body for one received command id (scan_device.py lines 195-208). -/
def cmdStepReceived (cl : Cluster) (s : Nat × Dict String) (c : Nat) :
    Nat × Dict String :=
  (c + 1, dinsert s.2 (hex2 c) (cmdEntryReceived cl c))

/-- scan_device.py lines 167-210. The is_server argument only feeds a local
variable the body never reads, exactly as in the source. -/
def discover_commands_received (cl : Cluster) (_is_server : Bool) : JVal :=
  JVal.obj (List.insertionSort keyLE (paginate (cmdStepReceived cl) cl.recvPages 0 []).2)

/-- Record built for one discovered generated command (scan_device.py lines
241-252). The source spells the keys command_Name and command_args here,
unlike the received variant. -/
def cmdEntryGenerated (cl : Cluster) (c : Nat) : JVal :=
  let data := (cl.client_commands c).getD (toString c, Sum.inl "not_in_zcl")
  let args : JVal :=
    match data.2 with
    | Sum.inl s => JVal.str s
    | Sum.inr l => JVal.arr (l.map JVal.str)
  JVal.obj [("command_id", JVal.str (hex2 c)),
    ("command_Name", JVal.str data.1),
    ("command_args", args)]

/-- Loop body for one generated command id (scan_device.py lines 240-253). -/
def cmdStepGenerated (cl : Cluster) (s : Nat × Dict String) (c : Nat) :
    Nat × Dict String :=
  (c + 1, dinsert s.2 (hex2 c) (cmdEntryGenerated cl c))

/-- scan_device.py lines 213-255. -/
def discover_commands_generated (cl : Cluster) (_is_server : Bool) : JVal :=
  JVal.obj (List.insertionSort keyLE (paginate (cmdStepGenerated cl) cl.genPages 0 []).2)

/-- scan_device.py lines 74-87: the received and generated key names swap
when the cluster is scanned in the client role. -/
def scan_cluster (F : Foundation) (cl : Cluster) (is_server : Bool) : JVal :=
  let cmds_rec := if is_server then "commands_received" else "commands_generated"
  let cmds_gen := if is_server then "commands_generated" else "commands_received"
  JVal.obj [("cluster_id", JVal.str (hex4 cl.cluster_id)),
    ("name", JVal.str cl.ep_attribute),
    ("attributes", discover_attributes_extended F cl),
    (cmds_rec, discover_commands_received cl is_server),
    (cmds_gen, discover_commands_generated cl is_server)]

/-- External zigpy endpoint collaborator: the fields scan_device.py reads. -/
structure Endpoint where
  model : JVal
  manufacturer : JVal
  device_type : Nat
  profile_id : Nat
  in_clusters : List Cluster
  out_clusters : List Cluster

/-- Per-direction cluster dict of scan_endpoint: keyed by the hex4-formatted
cluster id, every cluster scanned with is_server true (scan_device.py lines
51-58 and 61-69). -/
def clusterDict (F : Foundation) (cls : List Cluster) : Dict String :=
  cls.foldl (fun d c => dinsert d (hex4 c.cluster_id) (scan_cluster F c true)) []

/-- scan_device.py lines 48-71: both directions are emitted as OrderedDicts
of the per-cluster reports sorted by their string key. -/
def scan_endpoint (F : Foundation) (ep : Endpoint) : Dict String :=
  [("in_clusters", JVal.obj (List.insertionSort keyLE (clusterDict F ep.in_clusters))),
   ("out_clusters", JVal.obj (List.insertionSort keyLE (clusterDict F ep.out_clusters)))]

/-- External zigpy device collaborator: the fields scan_device.py reads.
endpoints lists the items of the endpoint dict in iteration order. -/
structure Device where
  ieee : String
  nwk : Nat
  endpoints : List (Nat × Endpoint)

/-- Loop body of scan_results for one endpoint item (scan_device.py lines
30-42): endpoint zero is skipped; otherwise the model and manufacturer keys
of the device dict are overwritten and the endpoint report, the id header
updated with the scan_endpoint fields, is appended. -/
def scanStep (F : Foundation) (acc : Dict String × List JVal) (p : Nat × Endpoint) :
    Dict String × List JVal :=
  if p.1 = 0 then acc
  else
    (dinsert (dinsert acc.1 "model" p.2.model) "manufacturer" p.2.manufacturer,
      acc.2 ++ [JVal.obj ([("id", JVal.num p.1),
        ("device_type", JVal.str (hex4 p.2.device_type)),
        ("profile", JVal.str (hex4 p.2.profile_id))] ++ scan_endpoint F p.2)])

/-- scan_device.py lines 24-45: fold the endpoint items over scanStep
starting from the ieee and nwk header; the endpoints key is added last. -/
def scan_results (F : Foundation) (dev : Device) : JVal :=
  let s := dev.endpoints.foldl (scanStep F)
    ([("ieee", JVal.str dev.ieee), ("nwk", JVal.str (hex4 dev.nwk))], [])
  JVal.obj (dinsert s.1 "endpoints" (JVal.arr s.2))

/-- Transport side effects the zdo.py commands can issue. -/
inductive AdminCall where
  | mgmtLeaveReq : Nat → List Nat → AdminCall
  | ieeeAddrReq : Nat → AdminCall
  | addTransientLinkKey : AdminCall
  | permit : Nat → AdminCall
  | broadcastNwkUpdate : Nat → AdminCall
  | getNetworkParameters : AdminCall

/-- Logging levels used by zdo.py. -/
inductive LogLevel where
  | debug : LogLevel
  | warning : LogLevel
  | error : LogLevel

/-- Outcome of one administrative command: the transport calls in issue
order, the log lines in emission order, and whether the function returned
normally (false when an uncaught exception, such as a failed int conversion,
escapes it). -/
structure AdminOut where
  calls : List AdminCall
  logs : List (LogLevel × String)
  completed : Bool

/-- External application controller: device lookup by network address and by
IEEE address, each returning the network address of the found device. -/
structure ZApp where
  nwkOf : Nat → Nat
  nwkOfIeee : List Nat → Nat

/-- Digits of a Python int literal in base 16: empty input is invalid. -/
def pyIntHexDigits (l : List Char) : Option Nat :=
  if l = [] then none
  else
    l.foldl
      (fun acc c =>
        match acc, hexDigitVal c with
        | some a, some d => some (a * 16 + d)
        | _, _ => none)
      (some 0)

/-- Python int applied to a string with base 16: an optional 0x prefix is
accepted; none models the ValueError raised on malformed input. -/
def pyIntHex (s : String) : Option Nat :=
  match s.data with
  | '0' :: 'x' :: rest => pyIntHexDigits rest
  | l => pyIntHexDigits l

/-- zdo.py lines 11-22: a None ieee or falsy data returns early with a
warning and no transport call; otherwise the parent network address is
parsed from data as hex and a Mgmt_Leave_req is sent through that parent. -/
def leave (app : ZApp) (ieee : Option (List Nat)) (data : Option String) : AdminOut :=
  if ieee = none ∨ data = none ∨ data = some "" then
    { calls := [],
      logs := [(LogLevel.warning, "Incorrect parameters for zdo.leave command")],
      completed := true }
  else
    let lg := (LogLevel.debug, "running leave command")
    match pyIntHex (data.getD "") with
    | none => { calls := [], logs := [lg], completed := false }
    | some p =>
      { calls := [AdminCall.mgmtLeaveReq (app.nwkOf p) (ieee.getD [])],
        logs := [lg, (LogLevel.debug, "Mgmt_Leave_req response")],
        completed := true }

/-- zdo.py lines 25-34: a None ieee returns early with a warning and no
transport call; otherwise an IEEE_addr_req round trip is issued. -/
def ieee_ping (app : ZApp) (ieee : Option (List Nat)) : AdminOut :=
  match ieee with
  | none =>
    { calls := [],
      logs := [(LogLevel.warning, "Incorrect parameters for ieee_ping command")],
      completed := true }
  | some i =>
    { calls := [AdminCall.ieeeAddrReq (app.nwkOfIeee i)],
      logs := [(LogLevel.debug, "running ieee_ping command"),
        (LogLevel.debug, "IEEE_addr_req response")],
      completed := true }

/-- zdo.py lines 37-48: no input validation at all; the node address and the
link key are hardcoded in the body, the ieee and data arguments are unused,
and the two transport calls are issued for every input. -/
def join_with_code (_ieee : Option (List Nat)) (_data : Option String) : AdminOut :=
  { calls := [AdminCall.addTransientLinkKey, AdminCall.permit 60],
    logs := [(LogLevel.debug, "permit with key response")],
    completed := true }

/-- zdo.py lines 50-75: a None data returns early with an error log and no
transport call; otherwise a Mgmt_NWK_Update_req broadcast is issued followed
by a network parameter read. -/
def update_nwk_id (data : Option Nat) : AdminOut :=
  match data with
  | none =>
    { calls := [],
      logs := [(LogLevel.error, "Need NWK update id in the data")],
      completed := true }
  | some n =>
    { calls := [AdminCall.broadcastNwkUpdate n, AdminCall.getNetworkParameters],
      logs := [(LogLevel.debug, "Network params response")],
      completed := true }

/-- Key list of a serialized object, in emission order. -/
def objKeys : JVal → List String
  | JVal.obj fields => fields.map (fun p => p.1)
  | _ => []

/-- Records carried by one scripted discovery response. -/
def pageRecs {α : Type} : PageResp α → List α
  | PageResp.page _ recs => recs
  | _ => []

/-- All records mentioned anywhere in a response script. -/
def scriptRecs {α : Type} (script : List (PageResp α)) : List α :=
  (script.map pageRecs).flatten

/-- Concrete foundation used to evaluate the embedding on closed inputs. -/
def sampleFoundation : Foundation where
  data_types n := if n = 16 then some ("Bool", "Bool") else none
  access_control n := if n = 1 then some ("READ") else none

/-- Concrete cluster used to evaluate the embedding on closed inputs. -/
def sampleCluster : Cluster where
  cluster_id := 6
  ep_attribute := "on_off"
  attributes := fun n => if n = 0 then some ("on_off_state") else none
  server_commands := fun n => if n = 0 then some ("off", Sum.inr ["a", "b"]) else none
  client_commands := fun _ => none
  attrPages := [PageResp.page false [⟨0, 16, 1⟩, ⟨1, 32, 5⟩], PageResp.page true [⟨4, 16, 1⟩]]
  readResps := [ReadResp.ok [(0, PyVal.bytes [104, 105, 0]), (1, PyVal.other (JVal.num 3))]]
  recvPages := [PageResp.page true [0, 2]]
  genPages := [PageResp.page true [1]]

/-- Concrete endpoint wrapping the sample cluster. -/
def sampleEndpoint : Endpoint where
  model := JVal.str "lamp"
  manufacturer := JVal.str "acme"
  device_type := 257
  profile_id := 260
  in_clusters := [sampleCluster]
  out_clusters := []

/-- Concrete device wrapping the sample endpoint twice, plus the zdo
endpoint that the scan skips. -/
def sampleDevice : Device where
  ieee := "00:11:22:33:44:55:66:77"
  nwk := 4660
  endpoints := [(0, sampleEndpoint), (1, sampleEndpoint)]

theorem strLt_asymm : ∀ x y : List Char, strLt x y = true → strLt y x = false
  | [], [] => by simp [strLt]
  | [], _ :: _ => by simp [strLt]
  | _ :: _, [] => by simp [strLt]
  | a :: as, b :: bs => by
    rcases lt_trichotomy a b with h | h | h
    · simp [strLt, h, lt_asymm h]
    · subst h
      simpa [strLt] using strLt_asymm as bs
    · simp [strLt, h, lt_asymm h]

theorem strLt_total_not : ∀ x y z : List Char,
    strLt z x = true → strLt z y = true ∨ strLt y x = true
  | [], _, z => by cases z <;> simp [strLt]
  | _ :: _, [], _ => by intro _; right; simp [strLt]
  | _ :: _, _ :: _, [] => by intro _; left; simp [strLt]
  | a :: as, b :: bs, c :: cs => by
    intro h
    rcases lt_trichotomy c b with h1 | h1 | h1
    · left; simp [strLt, h1]
    · subst h1
      rcases lt_trichotomy c a with h2 | h2 | h2
      · right; simp [strLt, h2]
      · subst h2
        simp only [strLt, lt_irrefl, if_false] at h ⊢
        exact strLt_total_not as bs cs h
      · exfalso
        simp [strLt, h2, lt_asymm h2] at h
    · rcases lt_trichotomy c a with h2 | h2 | h2
      · right
        have hba : b < a := lt_trans h1 h2
        simp [strLt, hba]
      · subst h2
        right
        simp [strLt, h1]
      · exfalso
        simp [strLt, h2, lt_asymm h2] at h

theorem strLt_irrefl : ∀ x : List Char, strLt x x = false
  | [] => rfl
  | _ :: as => by simpa [strLt] using strLt_irrefl as

instance : IsTotal (String × JVal) keyLE := by
  constructor
  intro p q
  by_cases h : strLt q.1.data p.1.data = true
  · right; exact strLt_asymm _ _ h
  · left; simpa [keyLE] using h

instance : IsTrans (String × JVal) keyLE := by
  constructor
  intro p q r h1 h2
  by_cases h : strLt r.1.data p.1.data = true
  · rcases strLt_total_not _ _ _ h with hc | hc
    · rw [keyLE] at h2
      rw [h2] at hc; cases hc
    · rw [keyLE] at h1
      rw [h1] at hc; cases hc
  · simpa [keyLE] using h

theorem dlookup_dinsert {K : Type} [BEq K] [LawfulBEq K] [DecidableEq K] :
    ∀ (d : Dict K) (k k2 : K) (v : JVal),
      dlookup (dinsert d k v) k2 = if k2 = k then some v else dlookup d k2
  | [], k, k2, v => by
    by_cases h : k2 = k
    · subst h; simp [dinsert, dlookup]
    · simp [dinsert, dlookup, h, Ne.symm h]
  | p :: rest, k, k2, v => by
    by_cases h1 : p.1 = k
    · by_cases h2 : k2 = k
      · subst h2; simp [dinsert, dlookup, h1]
      · simp [dinsert, dlookup, h1, h2, Ne.symm h2]
    · simp only [dinsert, beq_iff_eq, h1, if_false]
      by_cases h2 : p.1 = k2
      · have hk : ¬k2 = k := fun hh => h1 (h2.trans hh)
        simp [dlookup, h2, hk]
      · simp [dlookup, h2, dlookup_dinsert rest k k2 v]

theorem dkeys_dinsert_mem {K : Type} [BEq K] [LawfulBEq K] :
    ∀ (d : Dict K) (k k2 : K) (v : JVal),
      k2 ∈ dkeys (dinsert d k v) ↔ k2 = k ∨ k2 ∈ dkeys d
  | [], k, k2, v => by simp [dinsert, dkeys]
  | p :: rest, k, k2, v => by
    by_cases h1 : p.1 = k
    · simp only [dinsert, h1, beq_self_eq_true, if_true, dkeys, List.map_cons,
        List.mem_cons, h1]
      tauto
    · simp only [dinsert, beq_iff_eq, h1, if_false, dkeys, List.map_cons, List.mem_cons]
      have ih := dkeys_dinsert_mem rest k k2 v
      simp only [dkeys] at ih
      rw [ih]
      tauto

theorem dkeys_dinsert_nodup {K : Type} [BEq K] [LawfulBEq K] :
    ∀ (d : Dict K) (k : K) (v : JVal), (dkeys d).Nodup → (dkeys (dinsert d k v)).Nodup
  | [], k, v, _ => by simp [dinsert, dkeys]
  | p :: rest, k, v, hn => by
    simp only [dkeys, List.map_cons, List.nodup_cons] at hn
    by_cases h1 : p.1 = k
    · simp only [dinsert, h1, beq_self_eq_true, if_true]
      simp only [dkeys, List.map_cons, List.nodup_cons]
      refine ⟨?_, hn.2⟩
      have := hn.1
      rw [h1] at this
      simpa [dkeys] using this
    · simp only [dinsert, beq_iff_eq, h1, if_false]
      simp only [dkeys, List.map_cons, List.nodup_cons]
      constructor
      · intro hc
        rcases (dkeys_dinsert_mem rest k p.1 v).mp (by simpa [dkeys] using hc) with h | h
        · exact h1 h
        · exact hn.1 (by simpa [dkeys] using h)
      · exact dkeys_dinsert_nodup rest k v hn.2

theorem mem_dinsert {K : Type} [BEq K] [LawfulBEq K] :
    ∀ (d : Dict K) (k : K) (v : JVal) (p : K × JVal),
      p ∈ dinsert d k v → p = (k, v) ∨ p ∈ d
  | [], k, v, p => by simp [dinsert]
  | q :: rest, k, v, p => by
    by_cases h1 : q.1 = k
    · simp only [dinsert, h1, beq_self_eq_true, if_true, List.mem_cons]
      rintro (h | h)
      · exact Or.inl h
      · exact Or.inr (Or.inr h)
    · simp only [dinsert, beq_iff_eq, h1, if_false, List.mem_cons]
      rintro (h | h)
      · exact Or.inr (Or.inl h)
      · rcases mem_dinsert rest k v p h with h2 | h2
        · exact Or.inl h2
        · exact Or.inr (Or.inr h2)

theorem dkeys_dmodify {K : Type} [BEq K] :
    ∀ (d : Dict K) (k : K) (f : JVal → JVal), dkeys (dmodify d k f) = dkeys d
  | [], _, _ => rfl
  | p :: rest, k, f => by
    have ih := dkeys_dmodify rest k f
    simp only [dkeys] at ih
    by_cases h1 : (p.1 == k) = true <;>
      simp [dmodify, h1, dkeys, ih]

theorem getLast?_cons_or {α : Type} (a : α) (l : List α) :
    (a :: l).getLast? = l.getLast?.or (some a) := by
  cases l with
  | nil => rfl
  | cons b bs =>
    rw [List.getLast?_cons_cons]
    cases h : (b :: bs).getLast? with
    | none =>
      exact absurd h (by simp)
    | some x => rfl

theorem foldl_pair_snd {α K : Type} [BEq K] (step : Nat × Dict K → α → Nat × Dict K)
    (g : Dict K → α → Dict K) (hstep : ∀ s r, (step s r).2 = g s.2 r) :
    ∀ (recs : List α) (c : Nat) (d : Dict K),
      (recs.foldl step (c, d)).2 = recs.foldl g d
  | [], _, _ => rfl
  | r :: rest, c, d => by
    have h2 : step (c, d) r = ((step (c, d) r).1, g d r) := by
      rw [← hstep (c, d) r]
    simp only [List.foldl_cons]
    rw [h2]
    exact foldl_pair_snd step g hstep rest (step (c, d) r).1 (g d r)

theorem foldl_pair_fst {α K : Type} [BEq K] (step : Nat × Dict K → α → Nat × Dict K)
    (f : α → Nat) (hstep : ∀ s r, (step s r).1 = f r) :
    ∀ (recs : List α) (hne : recs ≠ []) (c : Nat) (d : Dict K),
      (recs.foldl step (c, d)).1 = f (recs.getLast hne)
  | [], hne, _, _ => absurd rfl hne
  | [r], _, c, d => by
    simpa using hstep (c, d) r
  | r :: r2 :: rest, _, c, d => by
    have ih := foldl_pair_fst step f hstep (r2 :: rest) (List.cons_ne_nil r2 rest)
      (step (c, d) r).1 (step (c, d) r).2
    rw [List.getLast_cons (List.cons_ne_nil r2 rest)]
    simpa using ih

theorem dlookup_foldl_dinsert {α K : Type} [BEq K] [LawfulBEq K] [DecidableEq K]
    (key : α → K) (val : α → JVal) :
    ∀ (l : List α) (d : Dict K) (k : K),
      dlookup (l.foldl (fun d r => dinsert d (key r) (val r)) d) k =
        (((l.filter (fun r => key r == k)).getLast?).map val).or (dlookup d k)
  | [], d, k => by simp
  | r :: rest, d, k => by
    simp only [List.foldl_cons]
    rw [dlookup_foldl_dinsert key val rest (dinsert d (key r) (val r)) k]
    rw [dlookup_dinsert d (key r) k (val r)]
    by_cases h : key r = k
    · rw [List.filter_cons_of_pos (by simpa using h)]
      rw [getLast?_cons_or]
      cases hx : (rest.filter (fun r => key r == k)).getLast? with
      | none => simp [h]
      | some x => simp [h]
    · rw [List.filter_cons_of_neg (by simpa using h)]
      rw [if_neg (fun he : k = key r => h he.symm)]

theorem dkeys_foldl_nodup {α K : Type} [BEq K] [LawfulBEq K]
    (key : α → K) (val : α → JVal) :
    ∀ (l : List α) (d : Dict K), (dkeys d).Nodup →
      (dkeys (l.foldl (fun d r => dinsert d (key r) (val r)) d)).Nodup
  | [], _, hn => hn
  | r :: rest, d, hn => by
    simp only [List.foldl_cons]
    exact dkeys_foldl_nodup key val rest _ (dkeys_dinsert_nodup d (key r) (val r) hn)

theorem dkeys_foldl_subset {α K : Type} [BEq K] [LawfulBEq K]
    (key : α → K) (val : α → JVal) :
    ∀ (l : List α) (d : Dict K) (k : K),
      k ∈ dkeys (l.foldl (fun d r => dinsert d (key r) (val r)) d) →
        k ∈ dkeys d ∨ ∃ r ∈ l, k = key r
  | [], _, _, h => Or.inl h
  | r :: rest, d, k, h => by
    simp only [List.foldl_cons] at h
    rcases dkeys_foldl_subset key val rest _ k h with h2 | h2
    · rcases (dkeys_dinsert_mem d (key r) k (val r)).mp h2 with h3 | h3
      · exact Or.inr ⟨r, by simp, h3⟩
      · exact Or.inl h3
    · rcases h2 with ⟨r2, hr2, hk⟩
      exact Or.inr ⟨r2, by simp [hr2], hk⟩

theorem mem_foldl_dinsert {α K : Type} [BEq K] [LawfulBEq K]
    (key : α → K) (val : α → JVal) :
    ∀ (l : List α) (d : Dict K) (p : K × JVal),
      p ∈ l.foldl (fun d r => dinsert d (key r) (val r)) d →
        p ∈ d ∨ ∃ r ∈ l, p = (key r, val r)
  | [], _, _, h => Or.inl h
  | r :: rest, d, p, h => by
    simp only [List.foldl_cons] at h
    rcases mem_foldl_dinsert key val rest _ p h with h2 | h2
    · rcases mem_dinsert d (key r) (val r) p h2 with h3 | h3
      · exact Or.inr ⟨r, by simp, h3⟩
      · exact Or.inl h3
    · rcases h2 with ⟨r2, hr2, hk⟩
      exact Or.inr ⟨r2, by simp [hr2], hk⟩

theorem paginate_page_false {α K : Type} [BEq K] (step : Nat × Dict K → α → Nat × Dict K)
    (recs : List α) (rest : List (PageResp α)) (cur : Nat) (d : Dict K) :
    paginate step (PageResp.page false recs :: rest) cur d =
      (cur :: (paginate step rest (recs.foldl step (cur, d)).1 (recs.foldl step (cur, d)).2).1,
        (paginate step rest (recs.foldl step (cur, d)).1 (recs.foldl step (cur, d)).2).2) := by
  simp [paginate]

theorem paginate_done_dict {α K : Type} [BEq K] (step : Nat × Dict K → α → Nat × Dict K)
    (g : Dict K → α → Dict K) (hstep : ∀ s r, (step s r).2 = g s.2 r) :
    ∀ (pages : List (List α)) (lastPage : List α) (cur : Nat) (d : Dict K),
      (paginate step (pages.map (PageResp.page false) ++ [PageResp.page true lastPage]) cur d).2 =
        (pages.flatten ++ lastPage).foldl g d
  | [], lastPage, cur, d => by
    simp [paginate, foldl_pair_snd step g hstep lastPage cur d]
  | p :: pages, lastPage, cur, d => by
    simp only [List.map_cons, List.cons_append]
    rw [paginate_page_false]
    simp only []
    rw [paginate_done_dict step g hstep pages lastPage _ _]
    rw [foldl_pair_snd step g hstep p cur d]
    simp [List.foldl_append]

theorem paginate_fail_dict {α K : Type} [BEq K] (step : Nat × Dict K → α → Nat × Dict K)
    (g : Dict K → α → Dict K) (hstep : ∀ s r, (step s r).2 = g s.2 r) :
    ∀ (pages : List (List α)) (rest : List (PageResp α)) (cur : Nat) (d : Dict K),
      (paginate step (pages.map (PageResp.page false) ++ PageResp.fail :: rest) cur d).2 =
        pages.flatten.foldl g d
  | [], rest, cur, d => by simp [paginate]
  | p :: pages, rest, cur, d => by
    simp only [List.map_cons, List.cons_append]
    rw [paginate_page_false]
    simp only []
    rw [paginate_fail_dict step g hstep pages rest _ _]
    rw [foldl_pair_snd step g hstep p cur d]
    simp [List.foldl_append]

theorem paginate_status_dict {α K : Type} [BEq K] (step : Nat × Dict K → α → Nat × Dict K)
    (g : Dict K → α → Dict K) (hstep : ∀ s r, (step s r).2 = g s.2 r) :
    ∀ (pages : List (List α)) (rest : List (PageResp α)) (cur : Nat) (d : Dict K),
      (paginate step (pages.map (PageResp.page false) ++ PageResp.status :: rest) cur d).2 =
        pages.flatten.foldl g d
  | [], rest, cur, d => by simp [paginate]
  | p :: pages, rest, cur, d => by
    simp only [List.map_cons, List.cons_append]
    rw [paginate_page_false]
    simp only []
    rw [paginate_status_dict step g hstep pages rest _ _]
    rw [foldl_pair_snd step g hstep p cur d]
    simp [List.foldl_append]

/-- Claim C2: for every discovery response sequence that ends with the
completion flag true, the attribute paginator accumulates a mapping with one
record per distinct id seen across all pages: its key set has no duplicates,
the entry stored for an id is built from the last occurrence of that id in
the concatenated page stream (so a record from a later page overwrites an
earlier one), and an id has an entry exactly when some page mentions it. -/
theorem C2_paginator_union_last_wins (F : Foundation) (cl : Cluster)
    (pages : List (List AttrRec)) (lastPage : List AttrRec) :
    (dkeys (paginate (attrStep F cl)
        (pages.map (PageResp.page false) ++ [PageResp.page true lastPage]) 0 []).2).Nodup ∧
      (∀ id : Nat,
        dlookup (paginate (attrStep F cl)
            (pages.map (PageResp.page false) ++ [PageResp.page true lastPage]) 0 []).2 id =
          (((pages.flatten ++ lastPage).filter (fun r => r.attrid == id)).getLast?).map
            (attrEntry F cl)) ∧
      (∀ id : Nat,
        (dlookup (paginate (attrStep F cl)
            (pages.map (PageResp.page false) ++ [PageResp.page true lastPage]) 0 []).2 id).isSome
          ↔ id ∈ (pages.flatten ++ lastPage).map (fun r => r.attrid)) := by
  have hstep : ∀ (s : Nat × Dict Nat) (r : AttrRec),
      (attrStep F cl s r).2 = dinsert s.2 r.attrid (attrEntry F cl r) := fun _ _ => rfl
  have hd := paginate_done_dict (attrStep F cl)
    (fun d r => dinsert d r.attrid (attrEntry F cl r)) hstep pages lastPage 0 []
  refine ⟨?_, ?_, ?_⟩
  · rw [hd]
    exact dkeys_foldl_nodup _ _ _ _ (by simp [dkeys])
  · intro id
    rw [hd, dlookup_foldl_dinsert (fun r => r.attrid) (attrEntry F cl) _ _ id]
    simp [dlookup]
  · intro id
    rw [hd, dlookup_foldl_dinsert (fun r => r.attrid) (attrEntry F cl) _ _ id]
    rw [show dlookup ([] : Dict Nat) id = none from rfl, Option.or_none,
      Option.isSome_map']
    rw [List.getLast?_isSome]
    rw [Ne, List.filter_eq_nil_iff]
    simp only [List.mem_map, List.mem_append, List.mem_flatten, beq_iff_eq, not_forall,
      not_not, Decidable.not_not, exists_prop]

/-- Claim C3: when the response for one page is a DeliveryError that survived
the retry wrapper, or a bare status code instead of a record page, each of
the three discovery paginators terminates its loop and returns exactly the
records accumulated from the pages before it, whatever comes afterwards in
the script; the embedded paginator is a total function, so no exception
reaches the caller. -/
theorem C3_truncation_on_failure (F : Foundation) (cl : Cluster)
    (apages : List (List AttrRec)) (arest : List (PageResp AttrRec))
    (cpages : List (List Nat)) (crest : List (PageResp Nat)) :
    ((paginate (attrStep F cl)
        (apages.map (PageResp.page false) ++ PageResp.fail :: arest) 0 []).2 =
      apages.flatten.foldl (fun d r => dinsert d r.attrid (attrEntry F cl r)) []) ∧
    ((paginate (attrStep F cl)
        (apages.map (PageResp.page false) ++ PageResp.status :: arest) 0 []).2 =
      apages.flatten.foldl (fun d r => dinsert d r.attrid (attrEntry F cl r)) []) ∧
    ((paginate (cmdStepReceived cl)
        (cpages.map (PageResp.page false) ++ PageResp.fail :: crest) 0 []).2 =
      cpages.flatten.foldl (fun d c => dinsert d (hex2 c) (cmdEntryReceived cl c)) []) ∧
    ((paginate (cmdStepReceived cl)
        (cpages.map (PageResp.page false) ++ PageResp.status :: crest) 0 []).2 =
      cpages.flatten.foldl (fun d c => dinsert d (hex2 c) (cmdEntryReceived cl c)) []) ∧
    ((paginate (cmdStepGenerated cl)
        (cpages.map (PageResp.page false) ++ PageResp.fail :: crest) 0 []).2 =
      cpages.flatten.foldl (fun d c => dinsert d (hex2 c) (cmdEntryGenerated cl c)) []) ∧
    ((paginate (cmdStepGenerated cl)
        (cpages.map (PageResp.page false) ++ PageResp.status :: crest) 0 []).2 =
      cpages.flatten.foldl (fun d c => dinsert d (hex2 c) (cmdEntryGenerated cl c)) []) := by
  refine ⟨?_, ?_, ?_, ?_, ?_, ?_⟩
  · exact paginate_fail_dict _ _ (fun _ _ => rfl) apages arest 0 []
  · exact paginate_status_dict _ _ (fun _ _ => rfl) apages arest 0 []
  · exact paginate_fail_dict _ _ (fun _ _ => rfl) cpages crest 0 []
  · exact paginate_status_dict _ _ (fun _ _ => rfl) cpages crest 0 []
  · exact paginate_fail_dict _ _ (fun _ _ => rfl) cpages crest 0 []
  · exact paginate_status_dict _ _ (fun _ _ => rfl) cpages crest 0 []

theorem readPhase_calls : ∀ (ids : List Nat) (resps : List ReadResp) (d : Dict Nat),
    (readPhase ids resps d).1 = chunks4 ids
  | [], _, _ => rfl
  | [_], _, _ => rfl
  | [_, _], _, _ => rfl
  | [_, _, _], _, _ => rfl
  | a :: b :: c :: e :: rest, resps, d => by
    simp only [readPhase, chunks4]
    rw [readPhase_calls rest resps.tail _]

theorem chunks4_length : ∀ ids : List Nat, (chunks4 ids).length = (ids.length + 3) / 4
  | [] => rfl
  | [_] => by simp [chunks4]
  | [_, _] => by simp [chunks4]
  | [_, _, _] => by simp [chunks4]
  | _ :: _ :: _ :: _ :: rest => by
    simp only [chunks4, List.length_cons, chunks4_length rest]
    omega

theorem chunks4_le4 : ∀ ids : List Nat, ∀ c ∈ chunks4 ids, c.length ≤ 4
  | [] => by simp [chunks4]
  | [_] => by simp [chunks4]
  | [_, _] => by simp [chunks4]
  | [_, _, _] => by simp [chunks4]
  | _ :: _ :: _ :: _ :: rest => by
    simp only [chunks4, List.mem_cons]
    rintro c (h | h)
    · subst h; simp
    · exact chunks4_le4 rest c h

theorem chunks4_flatten : ∀ ids : List Nat, (chunks4 ids).flatten = ids
  | [] => rfl
  | [_] => rfl
  | [_, _] => rfl
  | [_, _, _] => rfl
  | _ :: _ :: _ :: _ :: rest => by
    simp only [chunks4, List.flatten_cons, chunks4_flatten rest]
    rfl

/-- Claim C5: the batch read calls the Value Reader issues are exactly the
successive slices of at most 4 ids of the discovered id list: for N
discovered ids there are ceil(N/4) calls, no call carries more than 4 ids,
and in order the calls partition the id list. -/
theorem C5_value_reader_batches :
    (∀ (F : Foundation) (cl : Cluster),
        attrReadCalls F cl = chunks4 (dkeys (discoverAttrsPager F cl).2)) ∧
      (∀ (ids : List Nat) (resps : List ReadResp) (d : Dict Nat),
        (readPhase ids resps d).1 = chunks4 ids) ∧
      (∀ ids : List Nat, (chunks4 ids).length = (ids.length + 3) / 4) ∧
      (∀ ids : List Nat, ∀ c ∈ chunks4 ids, c.length ≤ 4) ∧
      (∀ ids : List Nat, (chunks4 ids).flatten = ids) :=
  ⟨fun _ _ => readPhase_calls _ _ _, readPhase_calls, chunks4_length, chunks4_le4,
    chunks4_flatten⟩

theorem paginate_trace_head {α K : Type} [BEq K] (step : Nat × Dict K → α → Nat × Dict K) :
    ∀ (x : PageResp α) (rest : List (PageResp α)) (cur : Nat) (d : Dict K),
      (paginate step (x :: rest) cur d).1.head? = some cur := by
  intro x rest cur d
  cases x with
  | fail => rfl
  | status => rfl
  | page done recs => cases done <;> simp [paginate]

theorem paginate_trace_next {α K : Type} [BEq K] (step : Nat × Dict K → α → Nat × Dict K)
    (f : α → Nat) (hstep : ∀ s r, (step s r).1 = f r) :
    ∀ (front : List (List α)) (recs : List α) (hne : recs ≠ []) (x : PageResp α)
      (rest : List (PageResp α)) (cur : Nat) (d : Dict K),
      ((paginate step
          (front.map (PageResp.page false) ++ PageResp.page false recs :: x :: rest)
          cur d).1)[front.length + 1]? = some (f (recs.getLast hne))
  | [], recs, hne, x, rest, cur, d => by
    simp only [List.map_nil, List.nil_append, List.length_nil, Nat.zero_add]
    rw [paginate_page_false]
    simp only [List.getElem?_cons_succ]
    rw [← List.head?_eq_getElem?]
    rw [paginate_trace_head]
    rw [foldl_pair_fst step f hstep recs hne cur d]
  | p :: front, recs, hne, x, rest, cur, d => by
    simp only [List.map_cons, List.cons_append, List.length_cons]
    rw [paginate_page_false]
    simp only []
    rw [show front.length + 1 + 1 = (front.length + 1) + 1 from rfl]
    rw [List.getElem?_cons_succ]
    exact paginate_trace_next step f hstep front recs hne x rest _ _

/-- Claim C7 counterexample: a page whose records arrive in descending id
order. The attribute paginator requests the second page starting at 4, which
is one past the id of the LAST record of the page, not one past the highest
id seen in the page (that would be 6). -/
theorem C7_counterexample :
    (paginate (attrStep sampleFoundation sampleCluster)
        [PageResp.page false [⟨5, 0, 0⟩, ⟨3, 0, 0⟩], PageResp.page true []] 0 []).1 =
      [0, 4] ∧
      List.foldr (fun (r : AttrRec) m => max r.attrid m) 0
          [(⟨5, 0, 0⟩ : AttrRec), ⟨3, 0, 0⟩] + 1 = 6 ∧
      (4 : Nat) ≠ 6 :=
  ⟨rfl, rfl, by decide⟩

/-- Claim C7 as amended: after the paginator processes a nonempty page, the
start index of the next page request equals one plus the id of the last
record of that page in arrival order (which is one plus the highest id only
when the page arrives in ascending order). Stated for the attribute
paginator and the received-command paginator. -/
theorem C7_next_request_one_past_last (F : Foundation) (cl : Cluster)
    (front : List (List AttrRec)) (recs : List AttrRec) (hne : recs ≠ [])
    (x : PageResp AttrRec) (rest : List (PageResp AttrRec))
    (cfront : List (List Nat)) (crecs : List Nat) (hcne : crecs ≠ [])
    (y : PageResp Nat) (crest : List (PageResp Nat)) :
    ((paginate (attrStep F cl)
        (front.map (PageResp.page false) ++ PageResp.page false recs :: x :: rest)
        0 []).1)[front.length + 1]? = some ((recs.getLast hne).attrid + 1) ∧
      ((paginate (cmdStepReceived cl)
          (cfront.map (PageResp.page false) ++ PageResp.page false crecs :: y :: crest)
          0 []).1)[cfront.length + 1]? = some (crecs.getLast hcne + 1) :=
  ⟨paginate_trace_next (attrStep F cl) (fun r => r.attrid + 1) (fun _ _ => rfl)
      front recs hne x rest 0 [],
    paginate_trace_next (cmdStepReceived cl) (fun c => c + 1) (fun _ _ => rfl)
      cfront crecs hcne y crest 0 []⟩

theorem hexDigitVal_hexDigitChar : ∀ d < 16, hexDigitVal (hexDigitChar d) = some d := by
  decide

theorem bytesHex_cons (b : Nat) (rest : List Nat) :
    bytesHex (b :: rest) = hexDigitChar (b / 16) :: hexDigitChar (b % 16) :: bytesHex rest :=
  rfl

theorem hexDecode_bytesHex : ∀ bs : List Nat, (∀ b ∈ bs, b < 256) →
    hexDecode (bytesHex bs) = some bs
  | [], _ => rfl
  | b :: rest, hb => by
    have hb0 : b < 256 := hb b (List.mem_cons_self b rest)
    have hrest := hexDecode_bytesHex rest (fun x hx => hb x (List.mem_cons_of_mem b hx))
    have h1 : b / 16 < 16 := by omega
    have h2 : b % 16 < 16 := by omega
    rw [bytesHex_cons]
    simp only [hexDecode, hexDigitVal_hexDigitChar _ h1, hexDigitVal_hexDigitChar _ h2,
      hrest]
    have hbb : b / 16 * 16 + b % 16 = b := by omega
    rw [hbb]

/-- Claim C6 as amended: a bytes value whose prefix before the first null
byte decodes as UTF-8 is stored as that prefix with surrounding whitespace
stripped; when that prefix is not decodable, the whole value is stored as its
hex string, and hex-decoding that string yields the original bytes. -/
theorem C6_bytes_value_decoding (bs : List Nat) :
    (∀ cs : List Char,
        utf8Decode (bs.takeWhile (fun b => b != 0)) = some cs →
          processReadValue (PyVal.bytes bs) = JVal.str (String.mk (pyStrip cs))) ∧
      (utf8Decode (bs.takeWhile (fun b => b != 0)) = none →
        processReadValue (PyVal.bytes bs) = JVal.str (String.mk (bytesHex bs))) ∧
      ((∀ b ∈ bs, b < 256) → hexDecode (bytesHex bs) = some bs) := by
  refine ⟨?_, ?_, hexDecode_bytesHex bs⟩
  · intro cs h
    simp [processReadValue, h]
  · intro h
    simp [processReadValue, h]

/-- Claim C6 counterexample: the byte string FF 00 contains a null byte, but
the bytes before the first null are not decodable text, so the stored value
is the hex of the whole byte string and not any decoded, trimmed prefix. -/
theorem C6_counterexample :
    (0 ∈ ([255, 0] : List Nat)) ∧
      processReadValue (PyVal.bytes [255, 0]) = JVal.str "ff00" ∧
      ¬ ∃ cs : List Char,
          utf8Decode (([255, 0] : List Nat).takeWhile (fun b => b != 0)) = some cs ∧
            processReadValue (PyVal.bytes [255, 0]) = JVal.str (String.mk (pyStrip cs)) := by
  refine ⟨by decide, rfl, ?_⟩
  rintro ⟨cs, h, -⟩
  rw [show utf8Decode (([255, 0] : List Nat).takeWhile (fun b => b != 0)) = none from rfl]
    at h
  cases h

theorem C6_witness :
    processReadValue (PyVal.bytes [104, 105, 0, 255]) =
        JVal.str (String.mk (pyStrip ("hi".data))) ∧
      hexDecode (bytesHex [222, 0]) = some [222, 0] :=
  ⟨(C6_bytes_value_decoding [104, 105, 0, 255]).1 ("hi".data) (by decide),
    (C6_bytes_value_decoding [222, 0]).2.2 (by decide)⟩

/-- Claim C8: each zdo command that requires an input validates it before
touching the transport: leave invoked with a missing target ieee or with
missing or empty data issues zero transport calls, logs exactly one warning
and returns normally; ieee_ping with a missing ieee and update_nwk_id with
missing data likewise issue zero transport calls. join_with_code reads no
caller input in its body, so it has no required input to validate. -/
theorem C8_admin_validation :
    (∀ (app : ZApp) (data : Option String),
        (leave app none data).calls = [] ∧
          (leave app none data).logs =
            [(LogLevel.warning, "Incorrect parameters for zdo.leave command")] ∧
          (leave app none data).completed = true) ∧
      (∀ (app : ZApp) (ieee : Option (List Nat)),
        (leave app ieee none).calls = [] ∧
          (leave app ieee none).logs =
            [(LogLevel.warning, "Incorrect parameters for zdo.leave command")] ∧
          (leave app ieee none).completed = true) ∧
      (∀ (app : ZApp) (ieee : Option (List Nat)),
        (leave app ieee (some "")).calls = [] ∧
          (leave app ieee (some "")).logs =
            [(LogLevel.warning, "Incorrect parameters for zdo.leave command")] ∧
          (leave app ieee (some "")).completed = true) ∧
      (∀ app : ZApp,
        (ieee_ping app none).calls = [] ∧
          (ieee_ping app none).logs =
            [(LogLevel.warning, "Incorrect parameters for ieee_ping command")]) ∧
      ((update_nwk_id none).calls = []) := by
  refine ⟨?_, ?_, ?_, ?_, rfl⟩
  · intro app data
    refine ⟨?_, ?_, ?_⟩ <;> simp [leave]
  · intro app ieee
    refine ⟨?_, ?_, ?_⟩ <;> simp [leave]
  · intro app ieee
    refine ⟨?_, ?_, ?_⟩ <;> simp [leave]
  · intro app
    exact ⟨rfl, rfl⟩

/-- Claim C9: scan_endpoint scans both input and output clusters with the
server role: every per-cluster report in either direction is scan_cluster
applied with is_server true, and the server-role report maps the
commands_received key to received-command discovery and commands_generated
to generated-command discovery, identically for input and output clusters,
so the role-flip branch of scan_cluster is never taken from the assembler. -/
theorem C9_always_server_role (F : Foundation) (ep : Endpoint) :
    (scan_endpoint F ep =
      [("in_clusters", JVal.obj (List.insertionSort keyLE (clusterDict F ep.in_clusters))),
        ("out_clusters",
          JVal.obj (List.insertionSort keyLE (clusterDict F ep.out_clusters)))]) ∧
      (∀ p ∈ List.insertionSort keyLE (clusterDict F ep.in_clusters),
        ∃ c ∈ ep.in_clusters, p = (hex4 c.cluster_id, scan_cluster F c true)) ∧
      (∀ p ∈ List.insertionSort keyLE (clusterDict F ep.out_clusters),
        ∃ c ∈ ep.out_clusters, p = (hex4 c.cluster_id, scan_cluster F c true)) ∧
      (∀ cl : Cluster,
        scan_cluster F cl true =
          JVal.obj [("cluster_id", JVal.str (hex4 cl.cluster_id)),
            ("name", JVal.str cl.ep_attribute),
            ("attributes", discover_attributes_extended F cl),
            ("commands_received", discover_commands_received cl true),
            ("commands_generated", discover_commands_generated cl true)]) := by
  refine ⟨rfl, ?_, ?_, fun cl => rfl⟩
  · intro p hp
    have hp2 : p ∈ clusterDict F ep.in_clusters :=
      ((List.perm_insertionSort keyLE (clusterDict F ep.in_clusters)).mem_iff).mp hp
    rcases mem_foldl_dinsert (fun c : Cluster => hex4 c.cluster_id)
        (fun c => scan_cluster F c true) ep.in_clusters [] p hp2 with h | h
    · exact absurd h (List.not_mem_nil p)
    · exact h
  · intro p hp
    have hp2 : p ∈ clusterDict F ep.out_clusters :=
      ((List.perm_insertionSort keyLE (clusterDict F ep.out_clusters)).mem_iff).mp hp
    rcases mem_foldl_dinsert (fun c : Cluster => hex4 c.cluster_id)
        (fun c => scan_cluster F c true) ep.out_clusters [] p hp2 with h | h
    · exact absurd h (List.not_mem_nil p)
    · exact h

theorem C9_witness :
    ∃ c ∈ sampleEndpoint.in_clusters,
      (hex4 sampleCluster.cluster_id, scan_cluster sampleFoundation sampleCluster true) =
        (hex4 c.cluster_id, scan_cluster sampleFoundation c true) :=
  (C9_always_server_role sampleFoundation sampleEndpoint).2.1
    (hex4 sampleCluster.cluster_id, scan_cluster sampleFoundation sampleCluster true)
    (List.mem_singleton.mpr rfl)

theorem scanResultsFold_lookup (F : Foundation) :
    ∀ (eps : List (Nat × Endpoint)) (acc : Dict String × List JVal),
      dlookup (eps.foldl (scanStep F) acc).1 "model" =
          (((eps.filter (fun p => p.1 != 0)).getLast?).map (fun p => p.2.model)).or
            (dlookup acc.1 "model") ∧
        dlookup (eps.foldl (scanStep F) acc).1 "manufacturer" =
          (((eps.filter (fun p => p.1 != 0)).getLast?).map (fun p => p.2.manufacturer)).or
            (dlookup acc.1 "manufacturer")
  | [], acc => by simp
  | p :: rest, acc => by
    have ih := scanResultsFold_lookup F rest (scanStep F acc p)
    by_cases h0 : p.1 = 0
    · have hb : (p.1 != 0) = false := by simp [h0]
      simp only [List.foldl_cons, List.filter_cons, hb, if_false, Bool.false_eq_true]
      have hstep : scanStep F acc p = acc := by simp [scanStep, h0]
      rw [hstep] at ih ⊢
      exact ih
    · have hb : (p.1 != 0) = true := by simp [h0]
      have hm : dlookup (scanStep F acc p).1 "model" = some p.2.model := by
        simp only [scanStep, h0, if_false]
        rw [dlookup_dinsert, dlookup_dinsert]
        simp
      have hf : dlookup (scanStep F acc p).1 "manufacturer" = some p.2.manufacturer := by
        simp only [scanStep, h0, if_false]
        rw [dlookup_dinsert]
        simp
      simp only [List.foldl_cons, List.filter_cons, hb, if_true]
      rw [getLast?_cons_or]
      constructor
      · rw [ih.1, hm]
        cases hx : (rest.filter (fun p => p.1 != 0)).getLast? <;> simp
      · rw [ih.2, hf]
        cases hx : (rest.filter (fun p => p.1 != 0)).getLast? <;> simp

/-- Claim C10: the model and manufacturer keys of a device report carry the
fields of the last endpoint with a non-zero id in iteration order, each
scanned endpoint having overwritten the previous values; when the device has
no non-zero endpoint the two keys are absent from the report. -/
theorem C10_model_manufacturer_last (F : Foundation) (dev : Device) :
    ∃ fields : Dict String,
      scan_results F dev = JVal.obj fields ∧
        dlookup fields "model" =
          ((dev.endpoints.filter (fun p => p.1 != 0)).getLast?).map (fun p => p.2.model) ∧
        dlookup fields "manufacturer" =
          ((dev.endpoints.filter (fun p => p.1 != 0)).getLast?).map
            (fun p => p.2.manufacturer) := by
  refine ⟨dinsert
      (dev.endpoints.foldl (scanStep F)
        ([("ieee", JVal.str dev.ieee), ("nwk", JVal.str (hex4 dev.nwk))], [])).1
      "endpoints"
      (JVal.arr (dev.endpoints.foldl (scanStep F)
        ([("ieee", JVal.str dev.ieee), ("nwk", JVal.str (hex4 dev.nwk))], [])).2),
    rfl, ?_, ?_⟩
  · rw [dlookup_dinsert]
    rw [if_neg (by decide)]
    rw [(scanResultsFold_lookup F dev.endpoints _).1]
    rw [show dlookup [("ieee", JVal.str dev.ieee), ("nwk", JVal.str (hex4 dev.nwk))]
        "model" = none by simp [dlookup]]
    exact Option.or_none
  · rw [dlookup_dinsert]
    rw [if_neg (by decide)]
    rw [(scanResultsFold_lookup F dev.endpoints _).2]
    rw [show dlookup [("ieee", JVal.str dev.ieee), ("nwk", JVal.str (hex4 dev.nwk))]
        "manufacturer" = none by simp [dlookup]]
    exact Option.or_none

theorem applySuccess_keys : ∀ (succ : List (Nat × PyVal)) (d : Dict Nat),
    dkeys (applySuccess d succ) = dkeys d
  | [], _ => rfl
  | p :: rest, d => by
    simp only [applySuccess]
    rw [applySuccess_keys rest _]
    exact dkeys_dmodify d p.1 _

theorem readStep_keys (r : ReadResp) (d : Dict Nat) : dkeys (readStep r d) = dkeys d := by
  cases r with
  | fail => rfl
  | ok succ => exact applySuccess_keys succ d

theorem readPhase_keys : ∀ (ids : List Nat) (resps : List ReadResp) (d : Dict Nat),
    dkeys (readPhase ids resps d).2 = dkeys d
  | [], _, _ => rfl
  | [_], resps, d => readStep_keys _ _
  | [_, _], resps, d => readStep_keys _ _
  | [_, _, _], resps, d => readStep_keys _ _
  | _ :: _ :: _ :: _ :: rest, resps, d => by
    simp only [readPhase]
    rw [readPhase_keys rest resps.tail _]
    exact readStep_keys _ _

theorem paginate_keys_nodup {α K : Type} [BEq K] [LawfulBEq K]
    (step : Nat × Dict K → α → Nat × Dict K) (key : α → K) (val : α → JVal)
    (hstep : ∀ s r, (step s r).2 = dinsert s.2 (key r) (val r)) :
    ∀ (script : List (PageResp α)) (cur : Nat) (d : Dict K),
      (dkeys d).Nodup → (dkeys (paginate step script cur d).2).Nodup
  | [], _, _, hn => hn
  | PageResp.fail :: _, _, _, hn => hn
  | PageResp.status :: _, _, _, hn => hn
  | PageResp.page done recs :: rest, cur, d, hn => by
    have hfold : (recs.foldl step (cur, d)).2 =
        recs.foldl (fun d r => dinsert d (key r) (val r)) d :=
      foldl_pair_snd step _ hstep recs cur d
    have hnd2 := dkeys_foldl_nodup key val recs d hn
    cases done with
    | true =>
      simp only [paginate, if_true]
      rw [hfold]
      exact hnd2
    | false =>
      rw [paginate_page_false]
      exact paginate_keys_nodup step key val hstep rest (recs.foldl step (cur, d)).1
        (recs.foldl step (cur, d)).2 (by rw [hfold]; exact hnd2)

theorem paginate_keys_subset {α K : Type} [BEq K] [LawfulBEq K]
    (step : Nat × Dict K → α → Nat × Dict K) (key : α → K) (val : α → JVal)
    (hstep : ∀ s r, (step s r).2 = dinsert s.2 (key r) (val r)) :
    ∀ (script : List (PageResp α)) (cur : Nat) (d : Dict K) (k : K),
      k ∈ dkeys (paginate step script cur d).2 →
        k ∈ dkeys d ∨ ∃ r ∈ scriptRecs script, k = key r
  | [], _, _, _, h => Or.inl h
  | PageResp.fail :: _, _, _, _, h => Or.inl h
  | PageResp.status :: _, _, _, _, h => Or.inl h
  | PageResp.page done recs :: rest, cur, d, k, h => by
    have hfold : (recs.foldl step (cur, d)).2 =
        recs.foldl (fun d r => dinsert d (key r) (val r)) d :=
      foldl_pair_snd step _ hstep recs cur d
    have hrecs : scriptRecs (PageResp.page done recs :: rest) = recs ++ scriptRecs rest := by
      simp [scriptRecs, pageRecs]
    rw [hrecs]
    cases done with
    | true =>
      simp only [paginate, if_true] at h
      rw [hfold] at h
      rcases dkeys_foldl_subset key val recs d k h with h2 | h2
      · exact Or.inl h2
      · rcases h2 with ⟨r, hr, hk⟩
        exact Or.inr ⟨r, List.mem_append_left _ hr, hk⟩
    | false =>
      rw [paginate_page_false] at h
      rcases paginate_keys_subset step key val hstep rest _ _ k h with h2 | h2
      · rw [hfold] at h2
        rcases dkeys_foldl_subset key val recs d k h2 with h3 | h3
        · exact Or.inl h3
        · rcases h3 with ⟨r, hr, hk⟩
          exact Or.inr ⟨r, List.mem_append_left _ hr, hk⟩
      · rcases h2 with ⟨r, hr, hk⟩
        exact Or.inr ⟨r, List.mem_append_right _ hr, hk⟩

theorem hexDigitChar_lt_iff :
    ∀ d < 16, ∀ e < 16, (hexDigitChar d < hexDigitChar e ↔ d < e) := by decide

theorem hexWidthAux_le :
    ∀ (fuel n w : Nat), n ≤ fuel → 0 < w → n < 16 ^ w → hexWidthAux fuel n ≤ w
  | 0, n, w, _, hw, _ => by simpa [hexWidthAux] using hw
  | fuel + 1, n, w, hfuel, hw, hn => by
    simp only [hexWidthAux]
    by_cases h16 : n < 16
    · simp only [h16, if_true]
      omega
    · rw [if_neg h16]
      rcases w with _ | w2
      · omega
      · have hw2 : 0 < w2 := by
          rcases Nat.eq_zero_or_pos w2 with h | h
          · subst h
            rw [pow_one] at hn
            omega
          · exact h
        have hdiv : n / 16 < 16 ^ w2 := by
          rw [Nat.div_lt_iff_lt_mul (by norm_num)]
          calc n < 16 ^ (w2 + 1) := hn
            _ = 16 ^ w2 * 16 := by rw [pow_succ]
        have hfl : n / 16 ≤ fuel := by
          have : n / 16 < n := Nat.div_lt_self (by omega) (by norm_num)
          omega
        have := hexWidthAux_le fuel (n / 16) w2 hfl hw2 hdiv
        omega

theorem hexPad_eq_of_lt {w n : Nat} (hw : 0 < w) (hn : n < 16 ^ w) :
    hexPad w n = hexCharsAux w n := by
  unfold hexPad hexWidth
  rw [Nat.max_eq_left (hexWidthAux_le n n w (le_refl n) hw hn)]

theorem hexCharsAux_strLt_iff :
    ∀ (w m n : Nat), m < 16 ^ w → n < 16 ^ w →
      (strLt (hexCharsAux w m) (hexCharsAux w n) = true ↔ m < n)
  | 0, m, n, hm, hn => by
    have hm0 : m = 0 := by simpa using hm
    have hn0 : n = 0 := by simpa using hn
    subst hm0; subst hn0
    simp [hexCharsAux, strLt]
  | w + 1, m, n, hm, hn => by
    have h16 : (0 : Nat) < 16 ^ w := pow_pos (by norm_num) w
    have hq1 : m / 16 ^ w < 16 := by
      rw [Nat.div_lt_iff_lt_mul h16]
      calc m < 16 ^ (w + 1) := hm
        _ = 16 * 16 ^ w := by ring
    have hq2 : n / 16 ^ w < 16 := by
      rw [Nat.div_lt_iff_lt_mul h16]
      calc n < 16 ^ (w + 1) := hn
        _ = 16 * 16 ^ w := by ring
    have hr1 : m % 16 ^ w < 16 ^ w := Nat.mod_lt _ h16
    have hr2 : n % 16 ^ w < 16 ^ w := Nat.mod_lt _ h16
    have hm2 := Nat.div_add_mod m (16 ^ w)
    have hn2 := Nat.div_add_mod n (16 ^ w)
    simp only [hexCharsAux]
    rcases lt_trichotomy (m / 16 ^ w) (n / 16 ^ w) with h | h | h
    · have hc : hexDigitChar (m / 16 ^ w) < hexDigitChar (n / 16 ^ w) :=
        (hexDigitChar_lt_iff _ hq1 _ hq2).mpr h
      have hmn : m < n := by
        have hmul : 16 ^ w * (m / 16 ^ w + 1) ≤ 16 ^ w * (n / 16 ^ w) :=
          Nat.mul_le_mul_left _ (by omega)
        rw [Nat.mul_add, Nat.mul_one] at hmul
        omega
      simp [strLt, hc, hmn]
    · rw [h]
      have hEF : 16 ^ w * (m / 16 ^ w) = 16 ^ w * (n / 16 ^ w) := by rw [h]
      have ih := hexCharsAux_strLt_iff w (m % 16 ^ w) (n % 16 ^ w) hr1 hr2
      simp only [strLt, lt_self_iff_false, if_false]
      rw [ih]
      constructor <;> intro hlt <;> omega
    · have hc : hexDigitChar (n / 16 ^ w) < hexDigitChar (m / 16 ^ w) :=
        (hexDigitChar_lt_iff _ hq2 _ hq1).mpr h
      have hnc : ¬hexDigitChar (m / 16 ^ w) < hexDigitChar (n / 16 ^ w) := lt_asymm hc
      have hmn : ¬m < n := by
        have hmul : 16 ^ w * (n / 16 ^ w + 1) ≤ 16 ^ w * (m / 16 ^ w) :=
          Nat.mul_le_mul_left _ (by omega)
        rw [Nat.mul_add, Nat.mul_one] at hmul
        omega
      simp [strLt, hc, hnc, hmn]

theorem hexKey_strLt_iff {w m n : Nat} (hw : 0 < w) (hm : m < 16 ^ w) (hn : n < 16 ^ w) :
    (strLt (hexKey w m).data (hexKey w n).data = true) ↔ m < n := by
  show strLt ('0' :: 'x' :: hexPad w m) ('0' :: 'x' :: hexPad w n) = true ↔ m < n
  rw [hexPad_eq_of_lt hw hm, hexPad_eq_of_lt hw hn]
  simp only [strLt, lt_self_iff_false, if_false]
  exact hexCharsAux_strLt_iff w m n hm hn

theorem hexKey_inj {w m n : Nat} (hw : 0 < w) (hm : m < 16 ^ w) (hn : n < 16 ^ w) :
    hexKey w m = hexKey w n → m = n := by
  intro h
  rcases lt_trichotomy m n with hlt | he | hlt
  · have ht := (hexKey_strLt_iff hw hm hn).mpr hlt
    rw [h, strLt_irrefl] at ht
    cases ht
  · exact he
  · have ht := (hexKey_strLt_iff hw hn hm).mpr hlt
    rw [h, strLt_irrefl] at ht
    cases ht

theorem exists_sorted_hexKeys (w : Nat) (hw : 0 < w) :
    ∀ l : List (String × JVal), l.Pairwise keyLE → (l.map (fun p => p.1)).Nodup →
      (∀ p ∈ l, ∃ i, i < 16 ^ w ∧ p.1 = hexKey w i) →
      ∃ ids : List Nat, List.Pairwise (fun a b => a < b) ids ∧
        (∀ i ∈ ids, i < 16 ^ w) ∧ l.map (fun p => p.1) = ids.map (hexKey w)
  | [], _, _, _ => ⟨[], by simp, by simp, by simp⟩
  | p :: rest, hpw, hnd, hmem => by
    obtain ⟨i, hi, hki⟩ := hmem p (List.mem_cons_self p rest)
    obtain ⟨hhead, htail⟩ := List.pairwise_cons.mp hpw
    rw [List.map_cons, List.nodup_cons] at hnd
    obtain ⟨hnotin, hndtail⟩ := hnd
    obtain ⟨ids, hsort, hbound, hmap⟩ := exists_sorted_hexKeys w hw rest htail hndtail
      (fun q hq => hmem q (List.mem_cons_of_mem p hq))
    refine ⟨i :: ids, ?_, ?_, ?_⟩
    · rw [List.pairwise_cons]
      refine ⟨?_, hsort⟩
      intro j hj
      have hjb : j < 16 ^ w := hbound j hj
      have hkmem : hexKey w j ∈ rest.map (fun p => p.1) := by
        rw [hmap]
        exact List.mem_map_of_mem (hexKey w) hj
      obtain ⟨q, hq, hq1⟩ := List.mem_map.mp hkmem
      have hle : keyLE p q := hhead q hq
      have hnlt : ¬j < i := by
        intro hji
        have := (hexKey_strLt_iff hw hjb hi).mpr hji
        rw [keyLE, hq1, hki] at hle
        rw [hle] at this
        cases this
      have hne : i ≠ j := by
        intro he
        apply hnotin
        rw [hki, he]
        exact hkmem
      omega
    · intro j hj
      rcases List.mem_cons.mp hj with h | h
      · subst h; exact hi
      · exact hbound j h
    · simp only [List.map_cons]
      rw [hki, hmap]

theorem sorted_hexKey_keys (w : Nat) (hw : 0 < w) (l : List (String × JVal))
    (hnd : (l.map (fun p => p.1)).Nodup)
    (hmem : ∀ p ∈ l, ∃ i, i < 16 ^ w ∧ p.1 = hexKey w i) :
    ∃ ids : List Nat, List.Pairwise (fun a b => a < b) ids ∧
      (List.insertionSort keyLE l).map (fun p => p.1) = ids.map (hexKey w) := by
  have hperm := List.perm_insertionSort keyLE l
  obtain ⟨ids, h1, _, h3⟩ := exists_sorted_hexKeys w hw (List.insertionSort keyLE l)
    (List.sorted_insertionSort keyLE l)
    ((hperm.map (fun p => p.1)).nodup_iff.mpr hnd)
    (fun p hp => hmem p (hperm.mem_iff.mp hp))
  exact ⟨ids, h1, h3⟩

/-- Claim C4: serialization order is deterministic and independent of
arrival order: the two cluster maps of an endpoint report, the attribute map
of a cluster report and both command maps are emitted with key sequences
that are the hex images of strictly increasing numeric id lists. The bounds
hypotheses record that cluster and attribute ids are 16-bit and command ids
8-bit on the wire. -/
theorem C4_sorted_serialization (F : Foundation) (cl : Cluster) (ep : Endpoint)
    (hcl : ∀ c ∈ ep.in_clusters ++ ep.out_clusters, c.cluster_id < 65536)
    (hrecv : ∀ i ∈ scriptRecs cl.recvPages, i < 256)
    (hgen : ∀ i ∈ scriptRecs cl.genPages, i < 256) :
    (∃ ids : List Nat, List.Pairwise (fun a b => a < b) ids ∧
        (dlookup (scan_endpoint F ep) "in_clusters").map objKeys =
          some (ids.map hex4)) ∧
      (∃ ids : List Nat, List.Pairwise (fun a b => a < b) ids ∧
        (dlookup (scan_endpoint F ep) "out_clusters").map objKeys =
          some (ids.map hex4)) ∧
      (∃ ids : List Nat, List.Pairwise (fun a b => a < b) ids ∧
        objKeys (discover_attributes_extended F cl) = ids.map hex4) ∧
      (∀ b : Bool, ∃ ids : List Nat, List.Pairwise (fun a b => a < b) ids ∧
        objKeys (discover_commands_received cl b) = ids.map hex2) ∧
      (∀ b : Bool, ∃ ids : List Nat, List.Pairwise (fun a b => a < b) ids ∧
        objKeys (discover_commands_generated cl b) = ids.map hex2) := by
  have h65536 : (65536 : Nat) = 16 ^ 4 := by norm_num
  have h256 : (256 : Nat) = 16 ^ 2 := by norm_num
  have hclusters : ∀ side : List Cluster, (∀ c ∈ side, c.cluster_id < 65536) →
      ∃ ids : List Nat, List.Pairwise (fun a b => a < b) ids ∧
        (List.insertionSort keyLE (clusterDict F side)).map (fun p => p.1) =
          ids.map (hexKey 4) := by
    intro side hside
    apply sorted_hexKey_keys 4 (by norm_num)
    · have := dkeys_foldl_nodup (fun c : Cluster => hex4 c.cluster_id)
        (fun c => scan_cluster F c true) side [] (by simp [dkeys])
      simpa [dkeys] using this
    · intro p hp
      rcases mem_foldl_dinsert (fun c : Cluster => hex4 c.cluster_id)
          (fun c => scan_cluster F c true) side [] p hp with h | h
      · exact absurd h (List.not_mem_nil p)
      · rcases h with ⟨c, hc, hpc⟩
        refine ⟨c.cluster_id, by rw [← h65536]; exact hside c hc, ?_⟩
        rw [hpc]
        rfl
  refine ⟨?_, ?_, ?_, ?_, ?_⟩
  · obtain ⟨ids, h1, h2⟩ := hclusters ep.in_clusters
      (fun c hc => hcl c (List.mem_append_left _ hc))
    refine ⟨ids, h1, ?_⟩
    rw [show dlookup (scan_endpoint F ep) "in_clusters" =
        some (JVal.obj (List.insertionSort keyLE (clusterDict F ep.in_clusters)))
      from rfl]
    show some (objKeys (JVal.obj (List.insertionSort keyLE (clusterDict F ep.in_clusters)))) =
      some (ids.map hex4)
    rw [show objKeys (JVal.obj (List.insertionSort keyLE (clusterDict F ep.in_clusters))) =
        (List.insertionSort keyLE (clusterDict F ep.in_clusters)).map (fun p => p.1)
      from rfl]
    rw [h2]
    rfl
  · obtain ⟨ids, h1, h2⟩ := hclusters ep.out_clusters
      (fun c hc => hcl c (List.mem_append_right _ hc))
    refine ⟨ids, h1, ?_⟩
    rw [show dlookup (scan_endpoint F ep) "out_clusters" =
        some (JVal.obj (List.insertionSort keyLE (clusterDict F ep.out_clusters)))
      from rfl]
    show some (objKeys (JVal.obj (List.insertionSort keyLE (clusterDict F ep.out_clusters)))) =
      some (ids.map hex4)
    rw [show objKeys (JVal.obj (List.insertionSort keyLE (clusterDict F ep.out_clusters))) =
        (List.insertionSort keyLE (clusterDict F ep.out_clusters)).map (fun p => p.1)
      from rfl]
    rw [h2]
    rfl
  · have hnd : (dkeys (readPhase (dkeys (discoverAttrsPager F cl).2) cl.readResps
        (discoverAttrsPager F cl).2).2).Nodup := by
      rw [readPhase_keys]
      exact paginate_keys_nodup (attrStep F cl) (fun r => r.attrid) (attrEntry F cl)
        (fun _ _ => rfl) cl.attrPages 0 [] (by simp [dkeys])
    refine ⟨List.insertionSort (fun a b => a ≤ b)
      (dkeys (readPhase (dkeys (discoverAttrsPager F cl).2) cl.readResps
        (discoverAttrsPager F cl).2).2), ?_, ?_⟩
    · have hsorted := List.sorted_insertionSort (fun a b : Nat => a ≤ b)
        (dkeys (readPhase (dkeys (discoverAttrsPager F cl).2) cl.readResps
          (discoverAttrsPager F cl).2).2)
      have hnd2 := ((List.perm_insertionSort (fun a b : Nat => a ≤ b) _).nodup_iff).mpr hnd
      exact List.Pairwise.imp (fun h => lt_of_le_of_ne h.1 h.2)
        (List.Pairwise.and hsorted hnd2)
    · simp only [discover_attributes_extended, objKeys, List.map_map]
      rfl
  · intro b
    have hnd : (dkeys (paginate (cmdStepReceived cl) cl.recvPages 0 []).2).Nodup :=
      paginate_keys_nodup (cmdStepReceived cl) (fun c => hex2 c) (cmdEntryReceived cl)
        (fun _ _ => rfl) cl.recvPages 0 [] (by simp [dkeys])
    have hmem : ∀ p ∈ (paginate (cmdStepReceived cl) cl.recvPages 0 []).2,
        ∃ i, i < 16 ^ 2 ∧ p.1 = hexKey 2 i := by
      intro p hp
      have hk : p.1 ∈ dkeys (paginate (cmdStepReceived cl) cl.recvPages 0 []).2 :=
        List.mem_map_of_mem _ hp
      rcases paginate_keys_subset (cmdStepReceived cl) (fun c => hex2 c)
          (cmdEntryReceived cl) (fun _ _ => rfl) cl.recvPages 0 [] p.1 hk with h | h
      · exact absurd h (by simp [dkeys])
      · rcases h with ⟨r, hr, hk2⟩
        exact ⟨r, by rw [← h256]; exact hrecv r hr, hk2⟩
    obtain ⟨ids, h1, h2⟩ := sorted_hexKey_keys 2 (by norm_num)
      (paginate (cmdStepReceived cl) cl.recvPages 0 []).2 (by simpa [dkeys] using hnd)
      hmem
    refine ⟨ids, h1, ?_⟩
    rw [show objKeys (discover_commands_received cl b) =
        (List.insertionSort keyLE (paginate (cmdStepReceived cl) cl.recvPages 0 []).2).map
          (fun p => p.1) from rfl]
    rw [h2]
    rfl
  · intro b
    have hnd : (dkeys (paginate (cmdStepGenerated cl) cl.genPages 0 []).2).Nodup :=
      paginate_keys_nodup (cmdStepGenerated cl) (fun c => hex2 c) (cmdEntryGenerated cl)
        (fun _ _ => rfl) cl.genPages 0 [] (by simp [dkeys])
    have hmem : ∀ p ∈ (paginate (cmdStepGenerated cl) cl.genPages 0 []).2,
        ∃ i, i < 16 ^ 2 ∧ p.1 = hexKey 2 i := by
      intro p hp
      have hk : p.1 ∈ dkeys (paginate (cmdStepGenerated cl) cl.genPages 0 []).2 :=
        List.mem_map_of_mem _ hp
      rcases paginate_keys_subset (cmdStepGenerated cl) (fun c => hex2 c)
          (cmdEntryGenerated cl) (fun _ _ => rfl) cl.genPages 0 [] p.1 hk with h | h
      · exact absurd h (by simp [dkeys])
      · rcases h with ⟨r, hr, hk2⟩
        exact ⟨r, by rw [← h256]; exact hgen r hr, hk2⟩
    obtain ⟨ids, h1, h2⟩ := sorted_hexKey_keys 2 (by norm_num)
      (paginate (cmdStepGenerated cl) cl.genPages 0 []).2 (by simpa [dkeys] using hnd)
      hmem
    refine ⟨ids, h1, ?_⟩
    rw [show objKeys (discover_commands_generated cl b) =
        (List.insertionSort keyLE (paginate (cmdStepGenerated cl) cl.genPages 0 []).2).map
          (fun p => p.1) from rfl]
    rw [h2]
    rfl

theorem C4_witness :
    ((∀ c ∈ sampleEndpoint.in_clusters ++ sampleEndpoint.out_clusters,
        c.cluster_id < 65536) ∧
      (∀ i ∈ scriptRecs sampleCluster.recvPages, i < 256) ∧
      (∀ i ∈ scriptRecs sampleCluster.genPages, i < 256)) ∧
      (∃ ids : List Nat, List.Pairwise (fun a b => a < b) ids ∧
        objKeys (discover_attributes_extended sampleFoundation sampleCluster) =
          ids.map hex4) :=
  ⟨⟨by decide, by decide, by decide⟩,
    (C4_sorted_serialization sampleFoundation sampleCluster sampleEndpoint
      (by decide) (by decide) (by decide)).2.2.1⟩

theorem C5_witness :
    ([5] ∈ chunks4 [1, 2, 3, 4, 5]) ∧ ([5] : List Nat).length ≤ 4 ∧
      (chunks4 [1, 2, 3, 4, 5]).length = (([1, 2, 3, 4, 5] : List Nat).length + 3) / 4 :=
  ⟨by decide, C5_value_reader_batches.2.2.2.1 [1, 2, 3, 4, 5] [5] (by decide),
    C5_value_reader_batches.2.2.1 [1, 2, 3, 4, 5]⟩

theorem C7_witness :
    ((paginate (attrStep sampleFoundation sampleCluster)
        (([] : List (List AttrRec)).map (PageResp.page false) ++
          PageResp.page false [⟨5, 0, 0⟩, ⟨3, 0, 0⟩] :: PageResp.page true [] :: [])
        0 []).1)[(([] : List (List AttrRec)).length + 1)]? =
      some ((([(⟨5, 0, 0⟩ : AttrRec), ⟨3, 0, 0⟩]).getLast
        (List.cons_ne_nil _ _)).attrid + 1) ∧
      ((paginate (cmdStepReceived sampleCluster)
          (([] : List (List Nat)).map (PageResp.page false) ++
            PageResp.page false [7, 2] :: PageResp.page true [] :: [])
          0 []).1)[(([] : List (List Nat)).length + 1)]? =
        some (([7, 2] : List Nat).getLast (List.cons_ne_nil _ _) + 1) :=
  C7_next_request_one_past_last sampleFoundation sampleCluster
    [] [⟨5, 0, 0⟩, ⟨3, 0, 0⟩] (List.cons_ne_nil _ _) (PageResp.page true []) []
    [] [7, 2] (List.cons_ne_nil _ _) (PageResp.page true []) []

/-- Claim C1 on the code as written: a received-command entry has exactly
the keys command_id, command_name and command_arguments, but a
generated-command entry spells them command_id, command_Name and
command_args; both are stored under the 2-hex-digit id string. Evaluated on
a concrete cluster whose generated discovery returns command id 1. -/
theorem C1_generated_keys_mismatch :
    objKeys (cmdEntryReceived sampleCluster 1) =
        ["command_id", "command_name", "command_arguments"] ∧
      objKeys (cmdEntryGenerated sampleCluster 1) =
        ["command_id", "command_Name", "command_args"] ∧
      discover_commands_generated sampleCluster true =
        JVal.obj [("0x01", cmdEntryGenerated sampleCluster 1)] ∧
      (["command_id", "command_Name", "command_args"] ≠
        ["command_id", "command_name", "command_arguments"]) :=
  ⟨rfl, rfl, rfl, by decide⟩

end Zha
